import Mathlib

/-!
Verification development for the manufacturing plant simulation
(`Machine.py`, `Plant.py`, `simulation/MachineType.py`, `helper_functions.py`).

Shallow embedding conventions:
* Simulated time and all durations are rationals (`ℚ`); the Python code works
  with floats, but none of the verified claims depends on binary floating-point
  artifacts.
* Every random draw the code makes is an explicit input to the embedded
  function.  Draws taken from the *injected* seeded generators
  (`rngs['processing']`, `rngs['failure']`, `rngs['quality']`) and draws taken
  from the module-level *unseeded* `local_rng` are kept apart and documented at
  each parameter, because several claims hinge on which stream feeds which
  value.
* Python `assert`/`raise` failures are modelled with `Except.error`; a normal
  return is `Except.ok`.
* `itertools.count(start=1)` id counters are the explicit `Counters` state.
-/

deriving instance DecidableEq for Except

/-- Minimum of two rationals, written with an explicit comparison so that it
reduces inside the kernel (the lattice `min` of Mathlib does not). -/
def ratMin (a b : ℚ) : ℚ := if a ≤ b then a else b

/-- Maximum of two rationals, written with an explicit comparison so that it
reduces inside the kernel. -/
def ratMax (a b : ℚ) : ℚ := if a ≤ b then b else a

theorem ratMin_eq_min (a b : ℚ) : ratMin a b = min a b := (min_def a b).symm

theorem ratMax_eq_max (a b : ℚ) : ratMax a b = max a b := (max_def a b).symm

/-- Python `round(x, 0)` (banker's rounding: round half to even), on rationals. -/
def pyRound (x : ℚ) : ℤ :=
  let f := Rat.floor x
  let frac := x - f
  if frac < 1/2 then f
  else if 1/2 < frac then f + 1
  else if f % 2 = 0 then f else f + 1

/-- `np.clip(a, lo, hi)`: the lower bound is applied first, then the upper bound. -/
def npClip (a lo hi : ℚ) : ℚ := ratMin (ratMax a lo) hi

/-- Noise configuration passed to `Machine.vary_cycle_time` (`process_noise`). -/
structure ProcessNoise where
  mean_val : ℚ
  var_val : ℚ
  min_val : ℚ
  max_val : ℚ
deriving DecidableEq, Repr

/-- Repair configuration passed to `helper_functions.vary_repair_time`. -/
structure RepairBehavior where
  mean_val : ℚ
  var_val : ℚ
  min_bound : ℚ
  max_bound : ℚ
deriving DecidableEq, Repr

/-- Quality configuration (`quality` dict).  The values feed the real-valued
yield formula of `process_order`; they are kept rational here (the
configuration supplies plain numeric literals) and are cast to `ℝ` inside
`step_yield`. -/
structure QualityConfig where
  interrupt_penalty : ℚ
  min_yield : ℚ
deriving DecidableEq, Repr

/-- One record of `Machine.production_log` (`log_production_event`). -/
structure ProductionEvent where
  event_id : ℕ
  work_order_id : Option ℕ
  machine_id : ℕ
  process_id : ℕ
  process_route_id : ℕ
  step_number : ℕ
  batch_id : ℕ
  process_start : ℚ
  process_end : ℚ
  ideal_cycle_time : ℚ
  actual_cycle_time : ℚ
  event_status : String
deriving DecidableEq, Repr

/-- One record of `Machine.downtime_log` (`log_downtime_event`). -/
structure DowntimeEvent where
  downtime_id : ℕ
  work_order_id : Option ℕ
  process_id : ℕ
  process_route_id : ℕ
  machine_id : ℕ
  failure_type : String
  usage_duration : ℚ
  failure_start : ℚ
  failure_end : ℚ
deriving DecidableEq, Repr

/-- One record of `Machine.quality_log` (`log_quality_event`). -/
structure QualityEvent where
  quality_id : ℕ
  work_order_id : Option ℕ
  machine_id : ℕ
  process_id : ℕ
  process_route_id : ℕ
  step_number : ℕ
  batch_id : ℕ
  initial_quantity : ℤ
  units_approved : ℤ
  units_scrapped : ℤ
  event_time : ℚ
deriving DecidableEq, Repr

/-- The four module-level `itertools.count(start=1)` id counters of `Machine.py`
(`_event_id_counter`, `_batch_id_counter`, `_downtime_id_counter`,
`_quality_id_counter`), shared by all machines of one run. -/
structure Counters where
  event_id : ℕ
  batch_id : ℕ
  downtime_id : ℕ
  quality_id : ℕ
deriving DecidableEq, Repr

/-- Counter state at the start of a run: `count(start=1)` for each id kind. -/
def initialCounters : Counters := ⟨1, 1, 1, 1⟩

/-- Mutable state of one `Machine` instance.  `has_current_process` models
`self.current_process is not None`. -/
structure Machine where
  machine_id : ℕ
  machine_type : String
  ideal_cycle_time : ℚ
  is_operational : Bool
  current_work_order : Option ℕ
  production_log : List ProductionEvent
  downtime_log : List DowntimeEvent
  quality_log : List QualityEvent
  has_current_process : Bool
  start_quantity : ℤ
  end_quantity : ℤ
  is_busy : Bool
deriving DecidableEq, Repr

/-- `Machine.vary_cycle_time`: clip the sampled noise factor to the configured
bounds, multiply the nominal cycle time, round to a whole time unit.
`noiseDraw` is the `local_rng.normal(mean_val, var_val)` sample — note that it
comes from the module-level **unseeded** generator, not from the injected
`rngs` dictionary. -/
def vary_cycle_time (m : Machine) (pn : ProcessNoise) (noiseDraw : ℚ) : ℚ :=
  let nominal := m.ideal_cycle_time
  let noise := npClip noiseDraw pn.min_val pn.max_val
  ((pyRound (nominal * noise) : ℤ) : ℚ)

/-- `helper_functions.vary_repair_time`: clip the sampled repair duration to
the configured bounds and round.  `repairDraw` is the
`local_rng.lognormal(log(mean_val*60), var_val)` sample — again from the
module-level **unseeded** generator (the function takes no `rng` argument). -/
def vary_repair_time (rb : RepairBehavior) (repairDraw : ℚ) : ℚ :=
  ((pyRound (npClip repairDraw rb.min_bound rb.max_bound) : ℤ) : ℚ)

/-- `Machine.log_production_event`: draw `event_id` and `batch_id` from the
module-level counters, append the record, return the `batch_id`. -/
def log_production_event (m : Machine) (c : Counters)
    (process_id process_route_id step_number : ℕ)
    (process_start process_end actual_cycle_time : ℚ)
    (event_status : String) : ℕ × Machine × Counters :=
  let event_id := c.event_id
  let batch_id := c.batch_id
  let e : ProductionEvent :=
    { event_id := event_id
      work_order_id := m.current_work_order
      machine_id := m.machine_id
      process_id := process_id
      process_route_id := process_route_id
      step_number := step_number
      batch_id := batch_id
      process_start := process_start
      process_end := process_end
      ideal_cycle_time := m.ideal_cycle_time
      actual_cycle_time := actual_cycle_time
      event_status := event_status }
  (batch_id,
   { m with production_log := m.production_log ++ [e] },
   { c with event_id := c.event_id + 1, batch_id := c.batch_id + 1 })

/-- `Machine.log_downtime_event`: draw `downtime_id` and append the record. -/
def log_downtime_event (m : Machine) (c : Counters)
    (process_id process_route_id : ℕ) (failure_type : String)
    (usage_duration failure_start failure_end : ℚ) : Machine × Counters :=
  let downtime_id := c.downtime_id
  let e : DowntimeEvent :=
    { downtime_id := downtime_id
      work_order_id := m.current_work_order
      process_id := process_id
      process_route_id := process_route_id
      machine_id := m.machine_id
      failure_type := failure_type
      usage_duration := usage_duration
      failure_start := failure_start
      failure_end := failure_end }
  ({ m with downtime_log := m.downtime_log ++ [e] },
   { c with downtime_id := c.downtime_id + 1 })

/-- `Machine.log_quality_event`: draw `quality_id` and append the record;
`env_now` is `env.now` at the call. -/
def log_quality_event (m : Machine) (c : Counters) (env_now : ℚ)
    (process_id process_route_id step_number batch_id : ℕ)
    (initial_quantity good_units scrap_units : ℤ) : Machine × Counters :=
  let quality_id := c.quality_id
  let e : QualityEvent :=
    { quality_id := quality_id
      work_order_id := m.current_work_order
      machine_id := m.machine_id
      process_id := process_id
      process_route_id := process_route_id
      step_number := step_number
      batch_id := batch_id
      initial_quantity := initial_quantity
      units_approved := good_units
      units_scrapped := scrap_units
      event_time := env_now }
  ({ m with quality_log := m.quality_log ++ [e] },
   { c with quality_id := c.quality_id + 1 })

/-- One interruption delivered to the processing loop of `process_order`
(a `simpy.Interrupt` raised by `Machine.cause_failure`).
`elapsedRaw` is `env.now - segment_start` at the instant the interrupt lands
(its timing is driven by `local_rng.integers`/`local_rng.exponential` in
`cause_failure` — unseeded draws).  `repairDraw` is the unseeded
`local_rng.lognormal` sample consumed by `vary_repair_time`.  `cause` is the
failure type chosen by the injected, seeded `failure_rng.choice`. -/
structure InterruptRec where
  elapsedRaw : ℚ
  repairDraw : ℚ
  cause : String
deriving DecidableEq, Repr

/-- State threaded through the `while remaining_time > 0` loop of
`Machine.process_order`. -/
structure LoopState where
  m : Machine
  c : Counters
  remaining : ℚ
  counter : ℤ
  loopGuard : ℕ
  now : ℚ
deriving DecidableEq, Repr

/-- The elapsed processing time charged by an interrupt iteration:
`env.now - segment_start`, with the negligible positive epsilon
`min(1e-6, remaining_time)` substituted when that difference is
non-positive (same-instant interruption). -/
def elapsedOf (s : LoopState) (i : InterruptRec) : ℚ :=
  if i.elapsedRaw ≤ 0 then ratMin (1/1000000 : ℚ) s.remaining else i.elapsedRaw

/-- The `except simpy.Interrupt` branch of the processing loop: mark the
machine non-operational, bump the interrupt counter, compute the elapsed time
(substituting `min(1e-6, remaining_time)` when non-positive), decrement the
remaining time (floored at zero), spend the repair time, log the downtime
event, and mark the machine operational again.  `g` is the already-incremented
`loop_guard` value of this iteration. -/
def interruptStep (process_id process_route_id : ℕ) (rb : RepairBehavior)
    (g : ℕ) (s : LoopState) (i : InterruptRec) : LoopState :=
  let m1 : Machine := { s.m with is_operational := false }
  let counter1 := s.counter + 1
  let failure_start := s.now + i.elapsedRaw
  let elapsed := elapsedOf s i
  let remaining1 := s.remaining - elapsed
  let remaining2 := if remaining1 < 0 then (0 : ℚ) else remaining1
  let repair_time := vary_repair_time rb i.repairDraw
  let failure_end := failure_start + repair_time
  let p := log_downtime_event m1 s.c process_id process_route_id i.cause elapsed failure_start failure_end
  { m := { p.1 with is_operational := true }
    c := p.2
    remaining := remaining2
    counter := counter1
    loopGuard := g
    now := failure_end }

/-- The `while remaining_time > 0` loop of `Machine.process_order`, driven by
the list of interrupts that will land during its processing timeouts.  Each
iteration re-checks the loop condition, the `remaining_time <=
actual_cycle_time` assertion (an `Except.error` if it fails), and the
1000-iteration guard (which overwrites `counter` with the `-1` sentinel and
breaks).  With no pending interrupt the timeout completes and `remaining_time`
becomes zero; otherwise the iteration runs the interrupt branch and loops. -/
def processLoop (process_id process_route_id : ℕ) (rb : RepairBehavior)
    (actual : ℚ) : LoopState → List InterruptRec → Except String LoopState
  | s, [] =>
    if s.remaining ≤ 0 then .ok s
    else if actual < s.remaining then
      .error "Remaining time increased unexpectedly"
    else if 1000 < s.loopGuard + 1 then
      .ok { s with counter := -1, loopGuard := s.loopGuard + 1 }
    else
      .ok { s with remaining := 0, now := s.now + s.remaining,
                   loopGuard := s.loopGuard + 1 }
  | s, i :: rest =>
    if s.remaining ≤ 0 then .ok s
    else if actual < s.remaining then
      .error "Remaining time increased unexpectedly"
    else if 1000 < s.loopGuard + 1 then
      .ok { s with counter := -1, loopGuard := s.loopGuard + 1 }
    else
      processLoop process_id process_route_id rb actual
        (interruptStep process_id process_route_id rb (s.loopGuard + 1) s i) rest

/-- The loop state `process_order` starts its processing loop from: machine
marked busy, work order and start quantity recorded, an active process
registered, `remaining_time = actual_cycle_time`, `counter = 0`,
`loop_guard = 0`. -/
def initLoopState (m : Machine) (c : Counters) (now : ℚ)
    (work_order_id : ℕ) (current_quantity : ℤ) (actual : ℚ) : LoopState :=
  { m := { m with is_busy := true
                  current_work_order := some work_order_id
                  start_quantity := current_quantity
                  has_current_process := true }
    c := c
    remaining := actual
    counter := 0
    loopGuard := 0
    now := now }

/-- Lines 470–472 of `Machine.py`: the binomial success probability for the
quality draw.  `counter` is the loop's exit value of the interrupt counter
(`-1` sentinel if the iteration ceiling tripped). -/
noncomputable def step_yield (target_yield : ℝ) (num_steps : ℕ) (counter : ℤ)
    (q : QualityConfig) : ℝ :=
  let interrupt_penalty := (counter : ℝ) * (q.interrupt_penalty : ℝ)
  let distributed_target := target_yield ^ ((1 : ℝ) / (num_steps : ℝ))
  max (q.min_yield : ℝ) (distributed_target - interrupt_penalty)

/-- `Machine.process_order`.  Mirrors the source step by step: the re-entrancy
assertion, busy marking, cycle-time sampling and positivity assertion, the
processing loop, idle restore, quality computation, the quantity assertion,
and the two log appends.  Randomness is explicit: `noiseDraw` is the unseeded
`local_rng.normal` sample of `vary_cycle_time`; `ints` carries the interrupts
(unseeded timing/repair draws, seeded `failure_rng` causes); `goodDraw` is the
value returned by the seeded `quality_rng.binomial(start_quantity, step_yield)`
call (an integer, so the subsequent `int(round(...))` is the identity).
`target_yield`, `num_steps` and `quality` only parametrize that binomial draw,
whose success probability is `step_yield` (claim C3). -/
def process_order (m : Machine) (c : Counters) (now : ℚ)
    (work_order_id step_number num_steps process_id process_route_id : ℕ)
    (target_yield : ℝ) (current_quantity : ℤ)
    (pn : ProcessNoise) (rb : RepairBehavior) (quality : QualityConfig)
    (noiseDraw : ℚ) (ints : List InterruptRec) (goodDraw : ℤ) :
    Except String (Machine × Counters × ℚ) :=
  if m.has_current_process then
    .error "Machine started a new process while still busy"
  else
    let actual := vary_cycle_time m pn noiseDraw
    if actual ≤ 0 then .error "Non-positive cycle time"
    else
      match processLoop process_id process_route_id rb actual
              (initLoopState m c now work_order_id current_quantity actual) ints with
      | .error e => .error e
      | .ok s =>
        let process_start := now
        let process_end := s.now
        let m2 : Machine := { s.m with has_current_process := false, is_busy := false }
        let good_units := goodDraw
        let scrap_units := m2.start_quantity - good_units
        let m3 : Machine := { m2 with end_quantity := good_units }
        if good_units + scrap_units ≠ m3.start_quantity then
          .error "Amount of units accepted and scrapped does not equal the amount of units provided at production start"
        else
          let status :=
            if 0 < s.counter then "interrupted"
            else if s.counter < 0 then "failed"
            else "completed"
          let p1 := log_production_event m3 s.c process_id process_route_id
                      step_number process_start process_end actual status
          let p2 := log_quality_event p1.2.1 p1.2.2 process_end process_id
                      process_route_id step_number p1.1 p1.2.1.start_quantity
                      good_units scrap_units
          .ok ({ p2.1 with current_work_order := none }, p2.2, s.now)

/-! ### Concrete fixtures used by witnesses -/

/-- A process-noise configuration with clip bounds `[1/2, 2]`. -/
def pn0 : ProcessNoise := { mean_val := 1, var_val := 0, min_val := 1/2, max_val := 2 }

/-- The repair configuration of the repository's default config. -/
def rb0 : RepairBehavior := { mean_val := 30, var_val := 3/5, min_bound := 300, max_bound := 28800 }

/-- A quality configuration. -/
def q0 : QualityConfig := { interrupt_penalty := 1/20, min_yield := 1/2 }

/-- An idle machine with `ideal_cycle_time = 100` and empty logs. -/
def m0 : Machine :=
  { machine_id := 1, machine_type := "CNC", ideal_cycle_time := 100,
    is_operational := true, current_work_order := none,
    production_log := [], downtime_log := [], quality_log := [],
    has_current_process := false, start_quantity := 0, end_quantity := 0,
    is_busy := false }

/-! ### Lemmas about the processing loop -/

theorem elapsedOf_nonneg (s : LoopState) (i : InterruptRec) (h : 0 ≤ s.remaining) :
    0 ≤ elapsedOf s i := by
  unfold elapsedOf ratMin
  split
  · split <;> norm_num <;> exact h
  · next hraw => exact le_of_lt (lt_of_not_le hraw)

theorem elapsedOf_pos (s : LoopState) (i : InterruptRec) (h : 0 < s.remaining) :
    0 < elapsedOf s i := by
  unfold elapsedOf ratMin
  split
  · split <;> [norm_num; exact h]
  · next hraw => exact lt_of_not_le hraw

theorem interruptStep_remaining (pid prid : ℕ) (rb : RepairBehavior) (g : ℕ)
    (s : LoopState) (i : InterruptRec) :
    (interruptStep pid prid rb g s i).remaining =
      if s.remaining - elapsedOf s i < 0 then 0 else s.remaining - elapsedOf s i := by
  simp [interruptStep, log_downtime_event]

theorem interruptStep_remaining_nonneg (pid prid : ℕ) (rb : RepairBehavior) (g : ℕ)
    (s : LoopState) (i : InterruptRec) (h : 0 ≤ s.remaining) :
    0 ≤ (interruptStep pid prid rb g s i).remaining := by
  rw [interruptStep_remaining]
  split
  · norm_num
  · next hneg => exact le_of_not_lt hneg

theorem interruptStep_remaining_le (pid prid : ℕ) (rb : RepairBehavior) (g : ℕ)
    (s : LoopState) (i : InterruptRec) (h : 0 ≤ s.remaining) :
    (interruptStep pid prid rb g s i).remaining ≤ s.remaining := by
  rw [interruptStep_remaining]
  have he := elapsedOf_nonneg s i h
  split
  · exact h
  · linarith

theorem interruptStep_remaining_lt (pid prid : ℕ) (rb : RepairBehavior) (g : ℕ)
    (s : LoopState) (i : InterruptRec) (h : 0 < s.remaining) :
    (interruptStep pid prid rb g s i).remaining < s.remaining := by
  rw [interruptStep_remaining]
  have he := elapsedOf_pos s i h
  split
  · exact h
  · linarith

/-- The downtime record logged by one interrupt iteration of the processing
loop (derived from `interruptStep`). -/
def downtimeEventOf (pid prid : ℕ) (rb : RepairBehavior) (s : LoopState)
    (i : InterruptRec) : DowntimeEvent :=
  { downtime_id := s.c.downtime_id
    work_order_id := s.m.current_work_order
    process_id := pid
    process_route_id := prid
    machine_id := s.m.machine_id
    failure_type := i.cause
    usage_duration := elapsedOf s i
    failure_start := s.now + i.elapsedRaw
    failure_end := s.now + i.elapsedRaw + vary_repair_time rb i.repairDraw }

/-- Main invariant of the `while remaining_time > 0` loop: started anywhere
with `0 ≤ remaining ≤ actual_cycle_time`, the loop never fails its in-loop
assertion, keeps `remaining` within `[0, actual_cycle_time]`, only appends to
the downtime log (leaving the production/quality logs, the busy flags and the
other id counters untouched), and exits either with
`counter = initial counter + number of repair cycles endured` or — when the
1000-iteration ceiling tripped — with the `-1` sentinel, a positive leftover
`remaining`, and exactly `1000 - initial loop_guard` repair cycles endured. -/
theorem processLoop_spec (pid prid : ℕ) (rb : RepairBehavior) (actual : ℚ)
    (ints : List InterruptRec) :
    ∀ (s : LoopState), 0 ≤ s.remaining → s.remaining ≤ actual →
      ∃ (s' : LoopState) (L : List DowntimeEvent),
        processLoop pid prid rb actual s ints = .ok s' ∧
        0 ≤ s'.remaining ∧ s'.remaining ≤ actual ∧
        s'.m.downtime_log = s.m.downtime_log ++ L ∧
        s'.m.production_log = s.m.production_log ∧
        s'.m.quality_log = s.m.quality_log ∧
        s'.m.is_busy = s.m.is_busy ∧
        s'.m.has_current_process = s.m.has_current_process ∧
        s'.m.current_work_order = s.m.current_work_order ∧
        s'.m.start_quantity = s.m.start_quantity ∧
        s'.m.end_quantity = s.m.end_quantity ∧
        s'.m.machine_id = s.m.machine_id ∧
        s'.m.ideal_cycle_time = s.m.ideal_cycle_time ∧
        s'.c.event_id = s.c.event_id ∧
        s'.c.batch_id = s.c.batch_id ∧
        s'.c.quality_id = s.c.quality_id ∧
        (s'.counter = s.counter + L.length ∨
          (s'.counter = -1 ∧ s.loopGuard + L.length = max 1000 s.loopGuard ∧
            0 < s'.remaining)) := by
  induction ints with
  | nil =>
    intro s h0 h1
    by_cases hr : s.remaining ≤ 0
    · exact ⟨s, [], by simp [processLoop, hr], h0, h1, by simp, rfl, rfl, rfl,
        rfl, rfl, rfl, rfl, rfl, rfl, rfl, rfl, rfl, Or.inl (by simp)⟩
    · have h1x : ¬ actual < s.remaining := not_lt.2 h1
      by_cases hg : 1000 < s.loopGuard + 1
      · exact ⟨{ s with counter := -1, loopGuard := s.loopGuard + 1 }, [],
          by simp [processLoop, hr, h1x, hg], h0, h1, by simp, rfl, rfl, rfl,
          rfl, rfl, rfl, rfl, rfl, rfl, rfl, rfl, rfl,
          Or.inr ⟨rfl, by simp only [List.length_nil, Nat.add_zero]; omega,
            lt_of_not_le hr⟩⟩
      · exact ⟨{ s with remaining := 0, now := s.now + s.remaining, loopGuard := s.loopGuard + 1 }, [],
          by simp [processLoop, hr, h1x, hg], le_refl 0, le_trans h0 h1,
          by simp, rfl, rfl, rfl, rfl, rfl, rfl, rfl, rfl, rfl, rfl, rfl, rfl,
          Or.inl (by simp)⟩
  | cons i rest ih =>
    intro s h0 h1
    by_cases hr : s.remaining ≤ 0
    · exact ⟨s, [], by simp [processLoop, hr], h0, h1, by simp, rfl, rfl, rfl,
        rfl, rfl, rfl, rfl, rfl, rfl, rfl, rfl, rfl, Or.inl (by simp)⟩
    · have h1x : ¬ actual < s.remaining := not_lt.2 h1
      by_cases hg : 1000 < s.loopGuard + 1
      · exact ⟨{ s with counter := -1, loopGuard := s.loopGuard + 1 }, [],
          by simp [processLoop, hr, h1x, hg], h0, h1, by simp, rfl, rfl, rfl,
          rfl, rfl, rfl, rfl, rfl, rfl, rfl, rfl, rfl,
          Or.inr ⟨rfl, by simp only [List.length_nil, Nat.add_zero]; omega,
            lt_of_not_le hr⟩⟩
      · obtain ⟨s1, hs1⟩ : ∃ s1, interruptStep pid prid rb (s.loopGuard + 1) s i = s1 :=
          ⟨_, rfl⟩
        have h0x : 0 ≤ s1.remaining := hs1 ▸ interruptStep_remaining_nonneg pid prid rb _ s i h0
        have hle : s1.remaining ≤ s.remaining := hs1 ▸ interruptStep_remaining_le pid prid rb _ s i h0
        have h1y : s1.remaining ≤ actual := le_trans hle h1
        have e1 : s1.m.downtime_log = s.m.downtime_log ++ [downtimeEventOf pid prid rb s i] := by
          rw [← hs1]; simp [interruptStep, log_downtime_event, downtimeEventOf]
        have e2 : s1.m.production_log = s.m.production_log := by
          rw [← hs1]; simp [interruptStep, log_downtime_event]
        have e3 : s1.m.quality_log = s.m.quality_log := by
          rw [← hs1]; simp [interruptStep, log_downtime_event]
        have e4 : s1.m.is_busy = s.m.is_busy := by
          rw [← hs1]; simp [interruptStep, log_downtime_event]
        have e5 : s1.m.has_current_process = s.m.has_current_process := by
          rw [← hs1]; simp [interruptStep, log_downtime_event]
        have e6 : s1.m.current_work_order = s.m.current_work_order := by
          rw [← hs1]; simp [interruptStep, log_downtime_event]
        have e7 : s1.m.start_quantity = s.m.start_quantity := by
          rw [← hs1]; simp [interruptStep, log_downtime_event]
        have e8 : s1.m.end_quantity = s.m.end_quantity := by
          rw [← hs1]; simp [interruptStep, log_downtime_event]
        have e9 : s1.m.machine_id = s.m.machine_id := by
          rw [← hs1]; simp [interruptStep, log_downtime_event]
        have e10 : s1.m.ideal_cycle_time = s.m.ideal_cycle_time := by
          rw [← hs1]; simp [interruptStep, log_downtime_event]
        have e11 : s1.c.event_id = s.c.event_id := by
          rw [← hs1]; simp [interruptStep, log_downtime_event]
        have e12 : s1.c.batch_id = s.c.batch_id := by
          rw [← hs1]; simp [interruptStep, log_downtime_event]
        have e13 : s1.c.quality_id = s.c.quality_id := by
          rw [← hs1]; simp [interruptStep, log_downtime_event]
        have ecnt : s1.counter = s.counter + 1 := by
          rw [← hs1]; simp [interruptStep, log_downtime_event]
        have eguard : s1.loopGuard = s.loopGuard + 1 := by
          rw [← hs1]; simp [interruptStep, log_downtime_event]
        obtain ⟨s2, L, hok, c1, c2, hdl, hpl, hql, hb, hcp, hwo, hsq, hendq,
          hmid, hict, hev, hbat, hqc, hcnt⟩ := ih s1 h0x h1y
        refine ⟨s2, downtimeEventOf pid prid rb s i :: L,
          by simpa [processLoop, hr, h1x, hg, hs1] using hok,
          c1, c2, ?_, hpl.trans e2, hql.trans e3, hb.trans e4, hcp.trans e5,
          hwo.trans e6, hsq.trans e7, hendq.trans e8, hmid.trans e9,
          hict.trans e10, hev.trans e11, hbat.trans e12, hqc.trans e13, ?_⟩
        · rw [hdl, e1]; simp
        · rcases hcnt with hcnt | ⟨ha, hb2, hc2⟩
          · exact Or.inl (by rw [hcnt, ecnt]; simp only [List.length_cons]; push_cast; ring)
          · refine Or.inr ⟨ha, ?_, hc2⟩
            rw [eguard] at hb2
            simp only [List.length_cons]
            omega

/-- Specification of every normally-returning `process_order` execution:
the loop result `s'` exists, exactly one production and one quality event are
appended (the downtime log grows by the loop's repair cycles `L`), the
production status is computed from the exit interrupt counter, the quality
split is the binomial draw and its complement against the entering quantity,
the machine is left idle, and the exit counter is either the number of repair
cycles endured or the `-1` ceiling sentinel (with exactly 1000 repair cycles
endured and time still remaining). -/
theorem process_order_spec (m : Machine) (c : Counters) (now : ℚ)
    (wo stepn nsteps pid prid : ℕ) (ty : ℝ) (qty : ℤ)
    (pn : ProcessNoise) (rb : RepairBehavior) (q : QualityConfig)
    (noiseDraw : ℚ) (ints : List InterruptRec) (goodDraw : ℤ)
    (m' : Machine) (c' : Counters) (t' : ℚ)
    (h : process_order m c now wo stepn nsteps pid prid ty qty pn rb q
          noiseDraw ints goodDraw = .ok (m', c', t')) :
    ∃ (s' : LoopState) (L : List DowntimeEvent) (pe : ProductionEvent)
      (qe : QualityEvent),
      processLoop pid prid rb (vary_cycle_time m pn noiseDraw)
        (initLoopState m c now wo qty (vary_cycle_time m pn noiseDraw)) ints
        = .ok s' ∧
      m'.production_log = m.production_log ++ [pe] ∧
      m'.downtime_log = m.downtime_log ++ L ∧
      m'.quality_log = m.quality_log ++ [qe] ∧
      pe.event_status = (if 0 < s'.counter then "interrupted"
        else if s'.counter < 0 then "failed" else "completed") ∧
      qe.initial_quantity = qty ∧
      qe.units_approved = goodDraw ∧
      qe.units_scrapped = qty - goodDraw ∧
      m'.is_busy = false ∧
      m'.has_current_process = false ∧
      m'.current_work_order = none ∧
      (s'.counter = L.length ∨
        (s'.counter = -1 ∧ L.length = 1000 ∧ 0 < s'.remaining)) := by
  simp only [process_order] at h
  by_cases hbusy : m.has_current_process = true
  · rw [if_pos hbusy] at h
    exact absurd h (by simp)
  · rw [if_neg hbusy] at h
    by_cases hA0 : vary_cycle_time m pn noiseDraw ≤ 0
    · rw [if_pos hA0] at h
      exact absurd h (by simp)
    · rw [if_neg hA0] at h
      have h0 : (0:ℚ) ≤ (initLoopState m c now wo qty
          (vary_cycle_time m pn noiseDraw)).remaining := by
        simp only [initLoopState]
        exact le_of_lt (lt_of_not_le hA0)
      have h1 : (initLoopState m c now wo qty
          (vary_cycle_time m pn noiseDraw)).remaining
            ≤ vary_cycle_time m pn noiseDraw := by
        simp [initLoopState]
      obtain ⟨s', L, hok, hr0, hr1, hdl, hpl, hql, hb, hcp, hwo2, hsq, hendq,
        hmid, hict, hev, hbat, hqc, hcnt⟩ :=
        processLoop_spec pid prid rb (vary_cycle_time m pn noiseDraw) ints
          (initLoopState m c now wo qty (vary_cycle_time m pn noiseDraw)) h0 h1
      simp only [hok] at h
      have hdl' : s'.m.downtime_log = m.downtime_log ++ L := by
        simpa [initLoopState] using hdl
      have hpl' : s'.m.production_log = m.production_log := by
        simpa [initLoopState] using hpl
      have hql' : s'.m.quality_log = m.quality_log := by
        simpa [initLoopState] using hql
      have hsq' : s'.m.start_quantity = qty := by
        simpa [initLoopState] using hsq
      have hwo' : s'.m.current_work_order = some wo := by
        simpa [initLoopState] using hwo2
      have hcnt' : s'.counter = (L.length : ℤ) ∨
          (s'.counter = -1 ∧ L.length = 1000 ∧ 0 < s'.remaining) := by
        rcases hcnt with hc1 | ⟨ha, hb2, hc2⟩
        · exact Or.inl (by simpa [initLoopState] using hc1)
        · refine Or.inr ⟨ha, ?_, hc2⟩
          simp only [initLoopState] at hb2
          omega
      have hq : ¬ (goodDraw + (s'.m.start_quantity - goodDraw)
          ≠ s'.m.start_quantity) := by
        push_neg
        ring
      rw [if_neg hq] at h
      simp only [Except.ok.injEq, Prod.mk.injEq] at h
      obtain ⟨hm', hrest⟩ := h
      obtain ⟨hc', ht'⟩ := hrest
      subst hm'
      refine ⟨s', L,
        { event_id := s'.c.event_id
          work_order_id := s'.m.current_work_order
          machine_id := s'.m.machine_id
          process_id := pid
          process_route_id := prid
          step_number := stepn
          batch_id := s'.c.batch_id
          process_start := now
          process_end := s'.now
          ideal_cycle_time := s'.m.ideal_cycle_time
          actual_cycle_time := vary_cycle_time m pn noiseDraw
          event_status := if 0 < s'.counter then "interrupted"
            else if s'.counter < 0 then "failed" else "completed" },
        { quality_id := s'.c.quality_id
          work_order_id := s'.m.current_work_order
          machine_id := s'.m.machine_id
          process_id := pid
          process_route_id := prid
          step_number := stepn
          batch_id := s'.c.batch_id
          initial_quantity := s'.m.start_quantity
          units_approved := goodDraw
          units_scrapped := s'.m.start_quantity - goodDraw
          event_time := s'.now },
        hok, ?_, ?_, ?_, rfl, hsq', rfl, by rw [hsq'], ?_, ?_, ?_, hcnt'⟩
      · rw [← hpl']
        simp [log_production_event, log_quality_event]
      · rw [← hdl']
        simp [log_production_event, log_quality_event]
      · rw [← hql']
        simp [log_production_event, log_quality_event]
      · simp [log_production_event, log_quality_event]
      · simp [log_production_event, log_quality_event]
      · simp [log_production_event, log_quality_event]

/-! ### A fully evaluated concrete run, shared by several witnesses -/

/-- The production event of the concrete uninterrupted run below. -/
def pe0 : ProductionEvent :=
  { event_id := 1, work_order_id := some 7, machine_id := 1, process_id := 2,
    process_route_id := 3, step_number := 1, batch_id := 1, process_start := 0,
    process_end := 100, ideal_cycle_time := 100, actual_cycle_time := 100,
    event_status := "completed" }

/-- The quality event of the concrete uninterrupted run below. -/
def qe0 : QualityEvent :=
  { quality_id := 1, work_order_id := some 7, machine_id := 1, process_id := 2,
    process_route_id := 3, step_number := 1, batch_id := 1,
    initial_quantity := 10, units_approved := 8, units_scrapped := 2,
    event_time := 100 }

/-- Machine state after the concrete uninterrupted run below. -/
def mEnd0 : Machine :=
  { m0 with production_log := [pe0], quality_log := [qe0],
            start_quantity := 10, end_quantity := 8 }

/-- Counter state after the concrete uninterrupted run below. -/
def cEnd0 : Counters := { event_id := 2, batch_id := 2, downtime_id := 1, quality_id := 2 }

/-- Concrete evaluation: one uninterrupted step of 10 units on `m0` with noise
draw 1 and binomial draw 8 completes at time 100. -/
theorem run0_eval :
    process_order m0 initialCounters 0 7 1 1 2 3 (1:ℝ) 10 pn0 rb0 q0 1 [] 8
      = .ok (mEnd0, cEnd0, 100) := by
  simp only [process_order, vary_cycle_time, npClip, ratMin, ratMax, pyRound,
    initLoopState, processLoop, log_production_event, log_quality_event,
    m0, pn0, rb0, q0, initialCounters, mEnd0, cEnd0, pe0, qe0, Rat.floor_def']
  norm_num

/-! ### Claim C2 -/

/-- C2: every quality event appended by `process_order` satisfies
`units_approved + units_scrapped = initial_quantity`, where the initial
quantity is the number of units that entered the step: the binomial good-unit
draw plus the scrap complement equals the entering quantity. -/
theorem quality_split_conserves_units (m : Machine) (c : Counters) (now : ℚ)
    (wo stepn nsteps pid prid : ℕ) (ty : ℝ) (qty : ℤ)
    (pn : ProcessNoise) (rb : RepairBehavior) (q : QualityConfig)
    (noiseDraw : ℚ) (ints : List InterruptRec) (goodDraw : ℤ)
    (m' : Machine) (c' : Counters) (t' : ℚ)
    (h : process_order m c now wo stepn nsteps pid prid ty qty pn rb q
          noiseDraw ints goodDraw = .ok (m', c', t')) :
    ∃ qe : QualityEvent,
      m'.quality_log = m.quality_log ++ [qe] ∧
      qe.units_approved + qe.units_scrapped = qe.initial_quantity ∧
      qe.initial_quantity = qty := by
  obtain ⟨s', L, pe, qe, _, _, _, hql, _, hinit, happ, hscrap, _⟩ :=
    process_order_spec m c now wo stepn nsteps pid prid ty qty pn rb q
      noiseDraw ints goodDraw m' c' t' h
  exact ⟨qe, hql, by rw [happ, hscrap, hinit]; ring, hinit⟩

/-- Witness for C2: the concrete run `run0_eval` (10 units in, 8 approved,
2 scrapped). -/
theorem quality_split_conserves_units_witness :
    (process_order m0 initialCounters 0 7 1 1 2 3 (1:ℝ) 10 pn0 rb0 q0 1 [] 8
      = .ok (mEnd0, cEnd0, 100)) ∧
    ∃ qe : QualityEvent,
      mEnd0.quality_log = m0.quality_log ++ [qe] ∧
      qe.units_approved + qe.units_scrapped = qe.initial_quantity ∧
      qe.initial_quantity = 10 :=
  ⟨run0_eval,
   quality_split_conserves_units m0 initialCounters 0 7 1 1 2 3 (1:ℝ) 10
     pn0 rb0 q0 1 [] 8 mEnd0 cEnd0 100 run0_eval⟩

/-! ### Claim C10 -/

/-- C10: every `process_order` execution that returns leaves the machine idle:
`is_busy` false, no current process, and no current work order — so the
machine is again selectable by its `MachineType` pool. -/
theorem process_order_restores_idle (m : Machine) (c : Counters) (now : ℚ)
    (wo stepn nsteps pid prid : ℕ) (ty : ℝ) (qty : ℤ)
    (pn : ProcessNoise) (rb : RepairBehavior) (q : QualityConfig)
    (noiseDraw : ℚ) (ints : List InterruptRec) (goodDraw : ℤ)
    (m' : Machine) (c' : Counters) (t' : ℚ)
    (h : process_order m c now wo stepn nsteps pid prid ty qty pn rb q
          noiseDraw ints goodDraw = .ok (m', c', t')) :
    m'.is_busy = false ∧ m'.has_current_process = false ∧
      m'.current_work_order = none := by
  obtain ⟨s', L, pe, qe, _, _, _, _, _, _, _, _, hb, hcp, hwo, _⟩ :=
    process_order_spec m c now wo stepn nsteps pid prid ty qty pn rb q
      noiseDraw ints goodDraw m' c' t' h
  exact ⟨hb, hcp, hwo⟩

/-- Witness for C10: the concrete run `run0_eval` ends with the machine idle. -/
theorem process_order_restores_idle_witness :
    (process_order m0 initialCounters 0 7 1 1 2 3 (1:ℝ) 10 pn0 rb0 q0 1 [] 8
      = .ok (mEnd0, cEnd0, 100)) ∧
    (mEnd0.is_busy = false ∧ mEnd0.has_current_process = false ∧
      mEnd0.current_work_order = none) :=
  ⟨run0_eval,
   process_order_restores_idle m0 initialCounters 0 7 1 1 2 3 (1:ℝ) 10
     pn0 rb0 q0 1 [] 8 mEnd0 cEnd0 100 run0_eval⟩

/-! ### Claim C1 -/

/-- Counterexample to C1 as stated.  Two `process_order` executions that agree
on the configuration and on every value derived from the injected seeded
`rngs` dictionary (the `quality_rng.binomial` draw `goodDraw = 8`, the —
empty — list of `failure_rng`-chosen interrupts), but differ in the
module-level **unseeded** `local_rng.normal` cycle-noise draw (1 versus 2,
a draw `vary_cycle_time` takes from `local_rng`, not from `rngs`), produce
different production logs: the first records `actual_cycle_time = 100`,
`process_end = 100`, the second `actual_cycle_time = 200`,
`process_end = 200`.  Identical injected streams therefore do not guarantee
identical event logs. -/
theorem identical_injected_rngs_logs_differ :
    (process_order m0 initialCounters 0 7 1 1 2 3 (1:ℝ) 10 pn0 rb0 q0 1 [] 8).map
      (fun r => r.1.production_log) ≠
    (process_order m0 initialCounters 0 7 1 1 2 3 (1:ℝ) 10 pn0 rb0 q0 2 [] 8).map
      (fun r => r.1.production_log) := by
  simp only [process_order, vary_cycle_time, npClip, ratMin, ratMax, pyRound,
    initLoopState, processLoop, log_production_event, log_quality_event,
    m0, pn0, rb0, q0, initialCounters, Rat.floor_def']
  norm_num
  simp [Except.map]

/-- C1 (amended): two runs produce identical event logs given identical
configuration, identical injected seeded streams, **and identical draws from
the module-level unseeded `local_rng`** (which feeds the cycle-time noise, the
failure timing, and the repair durations).  With every random input of
`process_order` fixed, two executions agree record for record on the
production, downtime, and quality logs. -/
theorem identical_all_rng_draws_identical_logs (m : Machine) (c : Counters)
    (now : ℚ) (wo stepn nsteps pid prid : ℕ) (ty : ℝ) (qty : ℤ)
    (pn : ProcessNoise) (rb : RepairBehavior) (q : QualityConfig)
    (noiseDraw : ℚ) (ints : List InterruptRec) (goodDraw : ℤ)
    (m1 : Machine) (c1 : Counters) (t1 : ℚ)
    (m2 : Machine) (c2 : Counters) (t2 : ℚ)
    (h1 : process_order m c now wo stepn nsteps pid prid ty qty pn rb q
           noiseDraw ints goodDraw = .ok (m1, c1, t1))
    (h2 : process_order m c now wo stepn nsteps pid prid ty qty pn rb q
           noiseDraw ints goodDraw = .ok (m2, c2, t2)) :
    m1.production_log = m2.production_log ∧
    m1.downtime_log = m2.downtime_log ∧
    m1.quality_log = m2.quality_log ∧ c1 = c2 ∧ t1 = t2 := by
  have h := h1.symm.trans h2
  simp only [Except.ok.injEq, Prod.mk.injEq] at h
  obtain ⟨hm, hc, ht⟩ := h
  exact ⟨by rw [hm], by rw [hm], by rw [hm], hc, ht⟩

/-- Witness for the amended C1 at the concrete run `run0_eval`. -/
theorem identical_all_rng_draws_identical_logs_witness :
    (process_order m0 initialCounters 0 7 1 1 2 3 (1:ℝ) 10 pn0 rb0 q0 1 [] 8
      = .ok (mEnd0, cEnd0, 100)) ∧
    (mEnd0.production_log = mEnd0.production_log ∧
     mEnd0.downtime_log = mEnd0.downtime_log ∧
     mEnd0.quality_log = mEnd0.quality_log ∧ cEnd0 = cEnd0 ∧ (100:ℚ) = 100) :=
  ⟨run0_eval,
   identical_all_rng_draws_identical_logs m0 initialCounters 0 7 1 1 2 3
     (1:ℝ) 10 pn0 rb0 q0 1 [] 8 mEnd0 cEnd0 100 mEnd0 cEnd0 100
     run0_eval run0_eval⟩

/-! ### Claim C5 -/

/-- C5: throughout the processing loop, `remaining_time` stays within
`[0, actual_cycle_time]` (the in-loop assertion never fires and the loop
returns normally with `remaining` still in range), and every
interrupt-handling iteration strictly decreases `remaining_time`: when the
raw elapsed time is non-positive, the substituted epsilon
`min(1e-6, remaining_time)` is used and is positive whenever
`remaining_time` is positive, guaranteeing progress. -/
theorem remaining_time_invariant (pid prid : ℕ) (rb : RepairBehavior)
    (actual : ℚ) (s : LoopState) (ints : List InterruptRec)
    (h0 : 0 ≤ s.remaining) (h1 : s.remaining ≤ actual) :
    (∃ s', processLoop pid prid rb actual s ints = .ok s' ∧
      0 ≤ s'.remaining ∧ s'.remaining ≤ actual) ∧
    (∀ (g : ℕ) (i : InterruptRec), 0 < s.remaining →
      (interruptStep pid prid rb g s i).remaining < s.remaining ∧
      0 ≤ (interruptStep pid prid rb g s i).remaining ∧
      (i.elapsedRaw ≤ 0 →
        elapsedOf s i = ratMin (1/1000000 : ℚ) s.remaining ∧
        0 < elapsedOf s i)) := by
  constructor
  · obtain ⟨s', L, hok, a, b, _⟩ := processLoop_spec pid prid rb actual ints s h0 h1
    exact ⟨s', hok, a, b⟩
  · intro g i hpos
    refine ⟨interruptStep_remaining_lt pid prid rb g s i hpos,
      interruptStep_remaining_nonneg pid prid rb g s i h0,
      fun hraw => ⟨by simp [elapsedOf, hraw], elapsedOf_pos s i hpos⟩⟩

/-- Witness for C5: the loop state of the concrete run (`remaining = actual
= 100`) with one same-instant interrupt pending. -/
theorem remaining_time_invariant_witness :
    ((0:ℚ) ≤ (initLoopState m0 initialCounters 0 7 10 100).remaining ∧
     (initLoopState m0 initialCounters 0 7 10 100).remaining ≤ 100) ∧
    ((∃ s', processLoop 2 3 rb0 100 (initLoopState m0 initialCounters 0 7 10 100)
        [⟨0, 400, "Bearing Seizure"⟩] = .ok s' ∧
        0 ≤ s'.remaining ∧ s'.remaining ≤ 100) ∧
     (∀ (g : ℕ) (i : InterruptRec),
        0 < (initLoopState m0 initialCounters 0 7 10 100).remaining →
        (interruptStep 2 3 rb0 g (initLoopState m0 initialCounters 0 7 10 100) i).remaining
            < (initLoopState m0 initialCounters 0 7 10 100).remaining ∧
        0 ≤ (interruptStep 2 3 rb0 g (initLoopState m0 initialCounters 0 7 10 100) i).remaining ∧
        (i.elapsedRaw ≤ 0 →
          elapsedOf (initLoopState m0 initialCounters 0 7 10 100) i
            = ratMin (1/1000000 : ℚ) (initLoopState m0 initialCounters 0 7 10 100).remaining ∧
          0 < elapsedOf (initLoopState m0 initialCounters 0 7 10 100) i))) :=
  ⟨⟨by simp [initLoopState], by simp [initLoopState]⟩,
   remaining_time_invariant 2 3 rb0 100 (initLoopState m0 initialCounters 0 7 10 100)
     [⟨0, 400, "Bearing Seizure"⟩] (by simp [initLoopState]) (by simp [initLoopState])⟩

/-! ### Claim C3 -/

/-- C3: on loop exit, the binomial success probability computed by
`process_order` equals
`max(min_yield, target_yield^(1/num_steps) − interrupt_count × interrupt_penalty)`,
where `interrupt_count` is the number of repair cycles endured and the `-1`
sentinel stands in when the 1000-iteration ceiling tripped; this holds for
every target yield in `(0, 1]`, every `num_steps ≥ 1`, and every quality
configuration. -/
theorem step_yield_formula (pid prid : ℕ) (rb : RepairBehavior) (actual : ℚ)
    (s : LoopState) (ints : List InterruptRec) (q : QualityConfig)
    (target_yield : ℝ) (num_steps : ℕ)
    (ht0 : 0 < target_yield) (ht1 : target_yield ≤ 1) (hn : 1 ≤ num_steps)
    (hc0 : s.counter = 0) (hg0 : s.loopGuard = 0)
    (h0 : 0 ≤ s.remaining) (h1 : s.remaining ≤ actual)
    (s' : LoopState)
    (hloop : processLoop pid prid rb actual s ints = .ok s') :
    ∃ L : List DowntimeEvent,
      s'.m.downtime_log = s.m.downtime_log ++ L ∧
      (s'.counter < 0 → s'.counter = -1 ∧ L.length = 1000) ∧
      step_yield target_yield num_steps s'.counter q =
        max (q.min_yield : ℝ)
          (target_yield ^ ((1:ℝ)/(num_steps:ℝ)) -
            (if s'.counter < 0 then (-1:ℝ) else (L.length : ℝ))
              * (q.interrupt_penalty : ℝ)) := by
  obtain ⟨s2, L, hok, _, _, hdl, _, _, _, _, _, _, _, _, _, _, _, _, hcnt⟩ :=
    processLoop_spec pid prid rb actual ints s h0 h1
  rw [hok] at hloop
  simp only [Except.ok.injEq] at hloop
  subst hloop
  rcases hcnt with hcv | ⟨hcv, hb2, _⟩
  · rw [hc0] at hcv
    simp only [zero_add] at hcv
    have hnotneg : ¬ s2.counter < 0 := by rw [hcv]; exact not_lt.2 (Int.natCast_nonneg _)
    refine ⟨L, hdl, fun hneg => absurd hneg hnotneg, ?_⟩
    rw [if_neg hnotneg, step_yield, hcv]
    push_cast
    ring_nf
  · rw [hg0] at hb2
    simp only [Nat.zero_add] at hb2
    have hlen : L.length = 1000 := by omega
    have hneg : s2.counter < 0 := by rw [hcv]; norm_num
    refine ⟨L, hdl, fun _ => ⟨hcv, hlen⟩, ?_⟩
    rw [if_pos hneg, step_yield, hcv]
    push_cast
    ring_nf

/-- The machine state `process_order` hands to its processing loop in the
concrete run (busy, work order 7, 10 units). -/
def mStart0 : Machine :=
  { m0 with is_busy := true, current_work_order := some 7,
            start_quantity := 10, has_current_process := true }

/-- Loop exit state of the concrete uninterrupted run. -/
def sEnd0 : LoopState :=
  { m := mStart0, c := initialCounters, remaining := 0, counter := 0,
    loopGuard := 1, now := 100 }

/-- Concrete evaluation of the processing loop with no pending interrupts. -/
theorem loop0_eval :
    processLoop 2 3 rb0 100 (initLoopState m0 initialCounters 0 7 10 100) []
      = .ok sEnd0 := by
  simp only [processLoop, initLoopState, mStart0, sEnd0, m0, initialCounters]
  norm_num

/-- Witness for C3 at the concrete uninterrupted run (`target_yield = 1`,
`num_steps = 1`). -/
theorem step_yield_formula_witness :
    ((0:ℝ) < 1 ∧ (1:ℝ) ≤ 1 ∧ 1 ≤ 1 ∧
     (initLoopState m0 initialCounters 0 7 10 100).counter = 0 ∧
     (initLoopState m0 initialCounters 0 7 10 100).loopGuard = 0 ∧
     (0:ℚ) ≤ (initLoopState m0 initialCounters 0 7 10 100).remaining ∧
     (initLoopState m0 initialCounters 0 7 10 100).remaining ≤ 100 ∧
     processLoop 2 3 rb0 100 (initLoopState m0 initialCounters 0 7 10 100) []
       = .ok sEnd0) ∧
    ∃ L : List DowntimeEvent,
      sEnd0.m.downtime_log
        = (initLoopState m0 initialCounters 0 7 10 100).m.downtime_log ++ L ∧
      (sEnd0.counter < 0 → sEnd0.counter = -1 ∧ L.length = 1000) ∧
      step_yield 1 1 sEnd0.counter q0 =
        max ((q0.min_yield : ℚ) : ℝ)
          ((1:ℝ) ^ ((1:ℝ)/((1:ℕ):ℝ)) -
            (if sEnd0.counter < 0 then (-1:ℝ) else (0:ℕ) + (L.length : ℝ))
              * ((q0.interrupt_penalty : ℚ) : ℝ)) := by
  refine ⟨⟨by norm_num, le_refl 1, le_refl 1, rfl, rfl,
    by simp [initLoopState], by simp [initLoopState], loop0_eval⟩, ?_⟩
  have := step_yield_formula 2 3 rb0 100
    (initLoopState m0 initialCounters 0 7 10 100) [] q0 1 1
    (by norm_num) (le_refl 1) (le_refl 1) rfl rfl
    (by simp [initLoopState]) (by simp [initLoopState]) sEnd0 loop0_eval
  obtain ⟨L, a, b, cEq⟩ := this
  exact ⟨L, a, b, by rw [cEq]; norm_num⟩

/-! ### Claim C4 -/

/-- C4: every returning `process_order` execution appends exactly one
production event and exactly one quality event, and the production event's
status is `completed` when the interrupt counter is zero, `interrupted` when
it is positive (one or more repair cycles completed normally, `k` below), and
`failed` exactly when the iteration ceiling tripped (counter negative, the
`-1` sentinel, after exactly 1000 repair cycles); no other status value ever
appears. -/
theorem production_event_status_partition (m : Machine) (c : Counters)
    (now : ℚ) (wo stepn nsteps pid prid : ℕ) (ty : ℝ) (qty : ℤ)
    (pn : ProcessNoise) (rb : RepairBehavior) (q : QualityConfig)
    (noiseDraw : ℚ) (ints : List InterruptRec) (goodDraw : ℤ)
    (m' : Machine) (c' : Counters) (t' : ℚ)
    (h : process_order m c now wo stepn nsteps pid prid ty qty pn rb q
          noiseDraw ints goodDraw = .ok (m', c', t')) :
    ∃ (pe : ProductionEvent) (qe : QualityEvent) (s' : LoopState) (k : ℕ),
      processLoop pid prid rb (vary_cycle_time m pn noiseDraw)
        (initLoopState m c now wo qty (vary_cycle_time m pn noiseDraw)) ints
        = .ok s' ∧
      m'.production_log = m.production_log ++ [pe] ∧
      m'.quality_log = m.quality_log ++ [qe] ∧
      m'.downtime_log.length = m.downtime_log.length + k ∧
      (pe.event_status = "completed" ∨ pe.event_status = "interrupted" ∨
        pe.event_status = "failed") ∧
      (pe.event_status = "completed" ↔ s'.counter = 0) ∧
      (pe.event_status = "interrupted" ↔ 0 < s'.counter) ∧
      (pe.event_status = "failed" ↔ s'.counter < 0) ∧
      (0 ≤ s'.counter → s'.counter = (k : ℤ)) ∧
      (s'.counter < 0 → s'.counter = -1 ∧ k = 1000) := by
  obtain ⟨s', L, pe, qe, hloop, hpl, hdl, hql, hstat, hinit, happ, hscrap,
    hb, hcp, hwo, hcnt⟩ :=
    process_order_spec m c now wo stepn nsteps pid prid ty qty pn rb q
      noiseDraw ints goodDraw m' c' t' h
  refine ⟨pe, qe, s', L.length, hloop, hpl, hql,
    by rw [hdl]; simp, ?_, ?_, ?_, ?_, ?_, ?_⟩ <;>
  · rcases hcnt with hcv | ⟨hcv, hlen, _⟩
    · by_cases hk : L.length = 0
      · have hc0 : s'.counter = 0 := by rw [hcv, hk]; simp
        have hst : pe.event_status = "completed" := by
          rw [hstat, hc0]; norm_num
        first
        | exact Or.inl hst
        | exact ⟨fun _ => hc0, fun _ => hst⟩
        | exact ⟨fun hh => absurd (hst ▸ hh) (by decide),
            fun hh => absurd (hc0 ▸ hh) (by norm_num)⟩
        | exact fun _ => hcv
        | exact fun hh => absurd (hc0 ▸ hh) (by norm_num)
      · have hpos : 0 < s'.counter := by
          rw [hcv]; exact_mod_cast Nat.pos_of_ne_zero hk
        have hst : pe.event_status = "interrupted" := by
          rw [hstat, if_pos hpos]
        first
        | exact Or.inr (Or.inl hst)
        | exact ⟨fun hh => absurd (hst ▸ hh) (by decide),
            fun hh => absurd hh (by rw [hcv] at hpos ⊢; omega)⟩
        | exact ⟨fun _ => hpos, fun _ => hst⟩
        | exact ⟨fun hh => absurd (hst ▸ hh) (by decide),
            fun hh => absurd hh (not_lt.2 (le_of_lt hpos))⟩
        | exact fun _ => hcv
        | exact fun hh => absurd hh (not_lt.2 (le_of_lt hpos))
    · have hneg : s'.counter < 0 := by rw [hcv]; norm_num
      have hst : pe.event_status = "failed" := by
        rw [hstat, hcv]; norm_num
      first
      | exact Or.inr (Or.inr hst)
      | exact ⟨fun hh => absurd (hst ▸ hh) (by decide),
          fun hh => absurd (hcv ▸ hh) (by norm_num)⟩
      | exact ⟨fun hh => absurd (hst ▸ hh) (by decide),
          fun hh => absurd hh (not_lt.2 (le_of_lt hneg))⟩
      | exact ⟨fun _ => hneg, fun _ => hst⟩
      | exact fun h0 => absurd h0 (not_le.2 hneg)
      | exact fun _ => ⟨hcv, hlen⟩

/-- Witness for C4 at the concrete uninterrupted run (status `completed`). -/
theorem production_event_status_partition_witness :
    (process_order m0 initialCounters 0 7 1 1 2 3 (1:ℝ) 10 pn0 rb0 q0 1 [] 8
      = .ok (mEnd0, cEnd0, 100)) ∧
    ∃ (pe : ProductionEvent) (qe : QualityEvent) (s' : LoopState) (k : ℕ),
      processLoop 2 3 rb0 (vary_cycle_time m0 pn0 1)
        (initLoopState m0 initialCounters 0 7 10 (vary_cycle_time m0 pn0 1)) []
        = .ok s' ∧
      mEnd0.production_log = m0.production_log ++ [pe] ∧
      mEnd0.quality_log = m0.quality_log ++ [qe] ∧
      mEnd0.downtime_log.length = m0.downtime_log.length + k ∧
      (pe.event_status = "completed" ∨ pe.event_status = "interrupted" ∨
        pe.event_status = "failed") ∧
      (pe.event_status = "completed" ↔ s'.counter = 0) ∧
      (pe.event_status = "interrupted" ↔ 0 < s'.counter) ∧
      (pe.event_status = "failed" ↔ s'.counter < 0) ∧
      (0 ≤ s'.counter → s'.counter = (k : ℤ)) ∧
      (s'.counter < 0 → s'.counter = -1 ∧ k = 1000) :=
  ⟨run0_eval,
   production_event_status_partition m0 initialCounters 0 7 1 1 2 3 (1:ℝ) 10
     pn0 rb0 q0 1 [] 8 mEnd0 cEnd0 100 run0_eval⟩

/-! ### Claim C6 — MachineType.select_machine -/

/-- `MachineType.select_machine`: linearly scan the member list for the first
machine with `is_busy == False`, mark it busy and return it (together with the
updated member list — Python mutates the shared object in place); raise
`RuntimeError` when no idle machine exists. -/
def select_machine : List Machine → Except String (Machine × List Machine)
  | [] => .error "Capacity granted but no idle machine found"
  | mm :: rest =>
    if mm.is_busy = false then
      .ok ({ mm with is_busy := true }, { mm with is_busy := true } :: rest)
    else
      match select_machine rest with
      | .ok p => .ok (p.1, mm :: p.2)
      | .error e => .error e

/-- C6: `select_machine` returns the first machine in list order whose
`is_busy` flag is false, setting that flag to true and leaving every other
member unchanged; and it raises `RuntimeError` (`Except.error`, never a
sentinel value or a retry) exactly when every member is busy. -/
theorem select_machine_first_idle (ms : List Machine) :
    (∀ (l1 : List Machine) (mm : Machine) (l2 : List Machine),
      ms = l1 ++ mm :: l2 → (∀ x ∈ l1, x.is_busy = true) → mm.is_busy = false →
      select_machine ms
        = .ok ({ mm with is_busy := true },
               l1 ++ { mm with is_busy := true } :: l2)) ∧
    (select_machine ms = .error "Capacity granted but no idle machine found"
      ↔ ∀ x ∈ ms, x.is_busy = true) := by
  constructor
  · intro l1
    induction l1 generalizing ms with
    | nil =>
      intro mm l2 hms hall hidle
      subst hms
      simp [select_machine, hidle]
    | cons a l1 ih =>
      intro mm l2 hms hall hidle
      subst hms
      have ha : a.is_busy = true := hall a (by simp)
      have := ih (l1 ++ mm :: l2) mm l2 rfl
        (fun x hx => hall x (by simp [hx])) hidle
      simp [select_machine, ha, this]
  · induction ms with
    | nil => simp [select_machine]
    | cons a rest ih =>
      by_cases ha : a.is_busy = true
      · constructor
        · intro hh x hx
          rw [select_machine] at hh
          rw [if_neg (by simp [ha])] at hh
          rcases List.mem_cons.1 hx with hx | hx
          · rwa [hx]
          · rcases hsel : select_machine rest with e | p
            · simp only [hsel, Except.error.injEq] at hh
              exact ih.1 (hh ▸ hsel) x hx
            · simp [hsel] at hh
        · intro hall
          have hrest : select_machine rest
              = .error "Capacity granted but no idle machine found" :=
            ih.2 (fun x hx => hall x (by simp [hx]))
          rw [select_machine, if_neg (by simp [ha]), hrest]
      · constructor
        · intro hh
          rw [select_machine,
            if_pos (by revert ha; cases a.is_busy <;> simp)] at hh
          exact absurd hh (by simp)
        · intro hall
          exact absurd (hall a (by simp)) ha

/-- Witness for C6: a two-member pool whose first machine is busy selects and
marks the second, and an all-busy pool raises. -/
theorem select_machine_first_idle_witness :
    (({ m0 with is_busy := true } :: m0 :: [])
        = [{ m0 with is_busy := true }] ++ m0 :: [] ∧
      (∀ x ∈ [{ m0 with is_busy := true }], x.is_busy = true) ∧
      m0.is_busy = false ∧
      select_machine ({ m0 with is_busy := true } :: m0 :: [])
        = .ok ({ m0 with is_busy := true },
               [{ m0 with is_busy := true }] ++ { m0 with is_busy := true } :: [])) ∧
    (select_machine [{ m0 with is_busy := true }]
        = .error "Capacity granted but no idle machine found"
      ↔ ∀ x ∈ [{ m0 with is_busy := true }], x.is_busy = true) :=
  ⟨⟨rfl, by simp, rfl,
    (select_machine_first_idle ({ m0 with is_busy := true } :: m0 :: [])).1
      [{ m0 with is_busy := true }] m0 [] rfl (by simp) rfl⟩,
   (select_machine_first_idle [{ m0 with is_busy := true }]).2⟩

/-! ### Claim C7 — Plant.__init__ run-mode validation -/

/-- The `num_work_orders` interpretation of `Plant.__init__`: a configured
value of `None` or `0` counts as missing. -/
def interpret_num_work_orders (raw : Option ℕ) : Option ℕ :=
  if raw = none ∨ raw = some 0 then none else raw

/-- The run-mode validation block of `Plant.__init__` (`Plant.py:107-122`).
Returns the interpreted `num_work_orders` together with a flag recording
whether `warnings.warn` fired; raises `ValueError` (`Except.error`) for a
volume run without a target count and for an unknown run mode.  In time mode
`num_work_orders` is forced to `1` whether or not a count was supplied. -/
def plant_run_mode_init (run_mode : String) (raw : Option ℕ) :
    Except String (Option ℕ × Bool) :=
  let num_work_orders := interpret_num_work_orders raw
  if run_mode = "volume" then
    if num_work_orders = none then
      .error "num_work_orders required for volume-driven run"
    else .ok (num_work_orders, false)
  else if run_mode = "time" then
    if num_work_orders ≠ none then .ok (some 1, true)
    else .ok (some 1, false)
  else
    .error "Run mode provided can only be defined as either time or volume"

/-- C7: `Plant` construction raises `ValueError` exactly when the run mode is
`volume` with `num_work_orders` missing (`None` or `0`), or when the run mode
is neither `time` nor `volume`; and a `time` run with a supplied count
succeeds, warns, and replaces the supplied count by `1` (it is not used as a
release target). -/
theorem plant_run_mode_validation (run_mode : String) (raw : Option ℕ) :
    ((∃ e, plant_run_mode_init run_mode raw = .error e) ↔
      ((run_mode = "volume" ∧ (raw = none ∨ raw = some 0)) ∨
       (run_mode ≠ "time" ∧ run_mode ≠ "volume"))) ∧
    (run_mode = "time" → raw ≠ none → raw ≠ some 0 →
      plant_run_mode_init run_mode raw = .ok (some 1, true)) := by
  constructor
  · by_cases hv : run_mode = "volume"
    · by_cases hm : raw = none ∨ raw = some 0
      · simp [plant_run_mode_init, interpret_num_work_orders, hv, hm]
      · have : interpret_num_work_orders raw ≠ none := by
          simp [interpret_num_work_orders, hm]
          rcases raw with _ | v
          · exact absurd (Or.inl rfl) hm
          · simp
        simp [plant_run_mode_init, hv, this, hm]
    · by_cases ht : run_mode = "time"
      · by_cases hm : interpret_num_work_orders raw ≠ none
        · simp [plant_run_mode_init, hv, ht, hm]
        · simp [plant_run_mode_init, hv, ht, hm]
      · simp [plant_run_mode_init, hv, ht]
  · intro ht h1 h2
    have : interpret_num_work_orders raw ≠ none := by
      simp [interpret_num_work_orders, h1, h2]
    simp [plant_run_mode_init, ht, this]

/-- Witness for C7: `time` mode with a supplied count of 5 succeeds with the
warning flag set and release target 1; and the error characterization at
`volume` with a missing count. -/
theorem plant_run_mode_validation_witness :
    (plant_run_mode_init "time" (some 5) = .ok (some 1, true)) ∧
    ((∃ e, plant_run_mode_init "volume" (some 0) = .error e) ↔
      (("volume" = "volume" ∧ ((some 5 : Option ℕ) = none ∨ (some 0 : Option ℕ) = some 0)) ∨
       (("volume" : String) ≠ "time" ∧ ("volume" : String) ≠ "volume"))) := by
  constructor
  · exact (plant_run_mode_validation "time" (some 5)).2 rfl
      (by simp) (by simp)
  · have := (plant_run_mode_validation "volume" (some 0)).1
    constructor
    · intro he
      exact Or.inl ⟨rfl, Or.inr rfl⟩
    · intro _
      exact this.2 (Or.inl ⟨rfl, Or.inr rfl⟩)

/-! ### Claim C8 — Plant.run_work_order timing -/

/-- The per-work-order timestamp dictionaries of `Plant`
(`work_order_start_times` / `work_order_end_times`), as association lists. -/
structure WorkOrderTimes where
  start_times : List (ℕ × ℚ)
  end_times : List (ℕ × ℚ)
deriving DecidableEq, Repr

/-- The step loop of `Plant.run_work_order`: for each step, record the work
order's start time if not yet present (this happens when the step requests
pool capacity, before any waiting), then let simulated time advance by the
step's total duration `d` (capacity wait plus machine processing — the
simulated clock never runs backwards, so `d ≥ 0` in any real execution). -/
def runSteps (wo_id : ℕ) : List ℚ → WorkOrderTimes → ℚ → WorkOrderTimes × ℚ
  | [], t, now => (t, now)
  | d :: rest, t, now =>
    let t1 := if (t.start_times.lookup wo_id).isSome then t
              else { t with start_times := (wo_id, now) :: t.start_times }
    runSteps wo_id rest t1 (now + d)

/-- `Plant.run_work_order` (timing skeleton, `Plant.py:359-393`): run all
steps, then assert that no end time exists yet for this work order id
(duplicate completion is fatal) and record the end time once.  An empty step
list would leave the Python local `work_order_id` unbound and die with a
`NameError` at the assert. -/
def run_work_order (wo_id : ℕ) (steps : List ℚ) (t : WorkOrderTimes)
    (now : ℚ) : Except String (WorkOrderTimes × ℚ) :=
  if steps.isEmpty then .error "NameError: work_order_id is not defined"
  else
    let p := runSteps wo_id steps t now
    if (p.1.end_times.lookup wo_id).isSome then
      .error "Duplicate completion detected"
    else
      .ok ({ p.1 with end_times := (wo_id, p.2) :: p.1.end_times }, p.2)

theorem runSteps_already (wo : ℕ) (l : List ℚ) :
    ∀ (t : WorkOrderTimes) (now : ℚ), (t.start_times.lookup wo).isSome →
      runSteps wo l t now = (t, now + l.sum) := by
  induction l with
  | nil => intro t now _; simp [runSteps]
  | cons d rest ih =>
    intro t now h
    rw [runSteps, if_pos h, ih t (now + d) h]
    simp only [List.sum_cons]
    ring_nf

theorem runSteps_fresh (wo : ℕ) (d : ℚ) (rest : List ℚ) (t : WorkOrderTimes)
    (now : ℚ) (h : t.start_times.lookup wo = none) :
    runSteps wo (d :: rest) t now =
      ({ t with start_times := (wo, now) :: t.start_times },
        now + (d :: rest).sum) := by
  rw [runSteps, if_neg (by simp [h])]
  rw [runSteps_already wo rest _ (now + d) (by simp [List.lookup])]
  simp only [List.sum_cons]
  ring_nf

/-- C8: for a work order driven to completion, the start time is recorded
exactly at the first step's capacity request, the end time is recorded exactly
once after the last step and satisfies `end_time ≥ start_time` (the simulated
clock being non-decreasing), and any second completion attempt for the same
work order id fails the duplicate-completion assertion instead of overwriting
the end time. -/
theorem work_order_times_recorded (wo : ℕ) (steps : List ℚ)
    (t : WorkOrderTimes) (now : ℚ)
    (hne : steps ≠ []) (hpos : ∀ d ∈ steps, 0 ≤ d)
    (hstart : t.start_times.lookup wo = none)
    (hend : t.end_times.lookup wo = none) :
    ∃ t' : WorkOrderTimes,
      run_work_order wo steps t now = .ok (t', now + steps.sum) ∧
      t'.start_times.lookup wo = some now ∧
      t'.end_times.lookup wo = some (now + steps.sum) ∧
      now ≤ now + steps.sum ∧
      (∀ (steps2 : List ℚ) (now2 : ℚ), steps2 ≠ [] →
        run_work_order wo steps2 t' now2
          = .error "Duplicate completion detected") := by
  rcases steps with _ | ⟨d, rest⟩
  · exact absurd rfl hne
  · have hsum : 0 ≤ (d :: rest).sum := List.sum_nonneg hpos
    refine ⟨{ start_times := (wo, now) :: t.start_times,
              end_times := (wo, now + (d :: rest).sum) :: t.end_times },
      ?_, by simp [List.lookup], by simp [List.lookup], by linarith, ?_⟩
    · rw [run_work_order, if_neg (by simp)]
      rw [runSteps_fresh wo d rest t now hstart]
      simp [hend]
    · intro steps2 now2 hne2
      rcases steps2 with _ | ⟨d2, rest2⟩
      · exact absurd rfl hne2
      · have hrs : runSteps wo (d2 :: rest2)
            { start_times := (wo, now) :: t.start_times,
              end_times := (wo, now + (d :: rest).sum) :: t.end_times } now2
            = ({ start_times := (wo, now) :: t.start_times,
                 end_times := (wo, now + (d :: rest).sum) :: t.end_times },
               now2 + (d2 :: rest2).sum) := by
          rw [runSteps, if_pos (by simp [List.lookup])]
          rw [runSteps_already wo rest2 _ (now2 + d2) (by simp [List.lookup])]
          simp only [List.sum_cons]
          ring_nf
        rw [run_work_order, if_neg (by simp), hrs]
        simp [List.lookup]

/-- Witness for C8: a two-step work order (durations 100 and 50) released at
time 0 on empty timestamp tables. -/
theorem work_order_times_recorded_witness :
    (([100, 50] : List ℚ) ≠ [] ∧ (∀ d ∈ ([100, 50] : List ℚ), 0 ≤ d) ∧
     (WorkOrderTimes.mk [] []).start_times.lookup 7 = none ∧
     (WorkOrderTimes.mk [] []).end_times.lookup 7 = none) ∧
    ∃ t' : WorkOrderTimes,
      run_work_order 7 [100, 50] (WorkOrderTimes.mk [] []) 0
        = .ok (t', 0 + ([100, 50] : List ℚ).sum) ∧
      t'.start_times.lookup 7 = some 0 ∧
      t'.end_times.lookup 7 = some (0 + ([100, 50] : List ℚ).sum) ∧
      (0:ℚ) ≤ 0 + ([100, 50] : List ℚ).sum ∧
      (∀ (steps2 : List ℚ) (now2 : ℚ), steps2 ≠ [] →
        run_work_order 7 steps2 t' now2
          = .error "Duplicate completion detected") :=
  ⟨⟨by simp, by norm_num, rfl, rfl⟩,
   work_order_times_recorded 7 [100, 50] (WorkOrderTimes.mk [] []) 0
     (by simp) (by norm_num) rfl rfl⟩

/-! ### Claim C9 — global monotone id counters -/

/-- One logging call made by some machine during a run: which machine
(`machineIdx`) appends which kind of record.  The three constructors mirror
`log_production_event`, `log_downtime_event` and `log_quality_event`. -/
inductive LogAction where
  | prod (machineIdx process_id process_route_id step_number : ℕ)
      (process_start process_end actual_cycle_time : ℚ) (event_status : String)
  | down (machineIdx process_id process_route_id : ℕ) (failure_type : String)
      (usage_duration failure_start failure_end : ℚ)
  | qual (machineIdx process_id process_route_id step_number batch_id : ℕ)
      (initial_quantity good_units scrap_units : ℤ) (event_time : ℚ)

/-- Apply one logging call to the machine population (indexed by `ℕ`) and the
shared module-level counters. -/
def applyAction (ms : ℕ → Machine) (c : Counters) :
    LogAction → (ℕ → Machine) × Counters
  | .prod i pid prid st ps pe act status =>
    let r := log_production_event (ms i) c pid prid st ps pe act status
    (Function.update ms i r.2.1, r.2.2)
  | .down i pid prid ft ud fs fe =>
    let r := log_downtime_event (ms i) c pid prid ft ud fs fe
    (Function.update ms i r.1, r.2)
  | .qual i pid prid st b init g sc et =>
    let r := log_quality_event (ms i) c et pid prid st b init g sc
    (Function.update ms i r.1, r.2)

/-- Run a whole sequence of logging calls. -/
def runActions (ms : ℕ → Machine) (c : Counters) :
    List LogAction → (ℕ → Machine) × Counters
  | [] => (ms, c)
  | a :: rest =>
    let p := applyAction ms c a
    runActions p.1 p.2 rest

/-- The ids assigned during a run, per id kind, in creation order. -/
structure IdTraces where
  events : List ℕ
  batches : List ℕ
  downtimes : List ℕ
  qualities : List ℕ

/-- Collect the ids each logging call draws from the shared counters, in the
order the records are created. -/
def idTraces (ms : ℕ → Machine) (c : Counters) : List LogAction → IdTraces
  | [] => ⟨[], [], [], []⟩
  | a :: rest =>
    let p := applyAction ms c a
    let tr := idTraces p.1 p.2 rest
    match a with
    | .prod .. => ⟨c.event_id :: tr.events, c.batch_id :: tr.batches,
                   tr.downtimes, tr.qualities⟩
    | .down .. => ⟨tr.events, tr.batches, c.downtime_id :: tr.downtimes,
                   tr.qualities⟩
    | .qual .. => ⟨tr.events, tr.batches, tr.downtimes,
                   c.quality_id :: tr.qualities⟩

/-- Number of production-log calls in an action list. -/
def countProd : List LogAction → ℕ
  | [] => 0
  | .prod .. :: rest => countProd rest + 1
  | .down .. :: rest => countProd rest
  | .qual .. :: rest => countProd rest

/-- Number of downtime-log calls in an action list. -/
def countDown : List LogAction → ℕ
  | [] => 0
  | .prod .. :: rest => countDown rest
  | .down .. :: rest => countDown rest + 1
  | .qual .. :: rest => countDown rest

/-- Number of quality-log calls in an action list. -/
def countQual : List LogAction → ℕ
  | [] => 0
  | .prod .. :: rest => countQual rest
  | .down .. :: rest => countQual rest
  | .qual .. :: rest => countQual rest + 1

theorem idTraces_events_eq (acts : List LogAction) :
    ∀ (ms : ℕ → Machine) (c : Counters),
      (idTraces ms c acts).events = List.range' c.event_id (countProd acts) := by
  induction acts with
  | nil => intro ms c; simp [idTraces, countProd, List.range']
  | cons a rest ih =>
    intro ms c
    cases a <;>
      simp [idTraces, countProd, applyAction, log_production_event,
        log_downtime_event, log_quality_event, ih, List.range']

theorem idTraces_batches_eq (acts : List LogAction) :
    ∀ (ms : ℕ → Machine) (c : Counters),
      (idTraces ms c acts).batches = List.range' c.batch_id (countProd acts) := by
  induction acts with
  | nil => intro ms c; simp [idTraces, countProd, List.range']
  | cons a rest ih =>
    intro ms c
    cases a <;>
      simp [idTraces, countProd, applyAction, log_production_event,
        log_downtime_event, log_quality_event, ih, List.range']

theorem idTraces_downtimes_eq (acts : List LogAction) :
    ∀ (ms : ℕ → Machine) (c : Counters),
      (idTraces ms c acts).downtimes
        = List.range' c.downtime_id (countDown acts) := by
  induction acts with
  | nil => intro ms c; simp [idTraces, countDown, List.range']
  | cons a rest ih =>
    intro ms c
    cases a <;>
      simp [idTraces, countDown, applyAction, log_production_event,
        log_downtime_event, log_quality_event, ih, List.range']

theorem idTraces_qualities_eq (acts : List LogAction) :
    ∀ (ms : ℕ → Machine) (c : Counters),
      (idTraces ms c acts).qualities
        = List.range' c.quality_id (countQual acts) := by
  induction acts with
  | nil => intro ms c; simp [idTraces, countQual, List.range']
  | cons a rest ih =>
    intro ms c
    cases a <;>
      simp [idTraces, countQual, applyAction, log_production_event,
        log_downtime_event, log_quality_event, ih, List.range']

/-- Invariant tying the machine population to the shared counters: every id
already present in any log is strictly below the corresponding counter, the
ids of each kind are duplicate-free within each machine's log, and two
different machines never share an id of the same kind. -/
def idState (ms : ℕ → Machine) (c : Counters) : Prop :=
  (∀ i, ∀ e ∈ (ms i).production_log,
      e.event_id < c.event_id ∧ e.batch_id < c.batch_id) ∧
  (∀ i, ∀ e ∈ (ms i).downtime_log, e.downtime_id < c.downtime_id) ∧
  (∀ i, ∀ e ∈ (ms i).quality_log, e.quality_id < c.quality_id) ∧
  (∀ i, ((ms i).production_log.map ProductionEvent.event_id).Nodup) ∧
  (∀ i, ((ms i).production_log.map ProductionEvent.batch_id).Nodup) ∧
  (∀ i, ((ms i).downtime_log.map DowntimeEvent.downtime_id).Nodup) ∧
  (∀ i, ((ms i).quality_log.map QualityEvent.quality_id).Nodup) ∧
  (∀ i j, i ≠ j → ∀ e1 ∈ (ms i).production_log, ∀ e2 ∈ (ms j).production_log,
      e1.event_id ≠ e2.event_id) ∧
  (∀ i j, i ≠ j → ∀ e1 ∈ (ms i).production_log, ∀ e2 ∈ (ms j).production_log,
      e1.batch_id ≠ e2.batch_id) ∧
  (∀ i j, i ≠ j → ∀ e1 ∈ (ms i).downtime_log, ∀ e2 ∈ (ms j).downtime_log,
      e1.downtime_id ≠ e2.downtime_id) ∧
  (∀ i j, i ≠ j → ∀ e1 ∈ (ms i).quality_log, ∀ e2 ∈ (ms j).quality_log,
      e1.quality_id ≠ e2.quality_id)

theorem idState_preserved (ms : ℕ → Machine) (c : Counters) (a : LogAction)
    (h : idState ms c) :
    idState (applyAction ms c a).1 (applyAction ms c a).2 := by
  obtain ⟨hp, hd, hq, hnp, hnb, hnd, hnq, hxp, hxb, hxd, hxq⟩ := h
  cases a with
  | prod k pid prid st ps pe act status =>
    have hpl : ∀ i, ((applyAction ms c (.prod k pid prid st ps pe act status)).1 i).production_log
        = if i = k then (ms i).production_log ++
            [{ event_id := c.event_id, work_order_id := (ms k).current_work_order,
               machine_id := (ms k).machine_id, process_id := pid,
               process_route_id := prid, step_number := st,
               batch_id := c.batch_id, process_start := ps, process_end := pe,
               ideal_cycle_time := (ms k).ideal_cycle_time,
               actual_cycle_time := act, event_status := status }]
          else (ms i).production_log := by
      intro i
      by_cases hik : i = k <;>
        simp [applyAction, log_production_event, Function.update_apply, hik]
    have hdl : ∀ i, ((applyAction ms c (.prod k pid prid st ps pe act status)).1 i).downtime_log
        = (ms i).downtime_log := by
      intro i
      by_cases hik : i = k <;>
        simp [applyAction, log_production_event, Function.update_apply, hik]
    have hql : ∀ i, ((applyAction ms c (.prod k pid prid st ps pe act status)).1 i).quality_log
        = (ms i).quality_log := by
      intro i
      by_cases hik : i = k <;>
        simp [applyAction, log_production_event, Function.update_apply, hik]
    have hcc : (applyAction ms c (.prod k pid prid st ps pe act status)).2
        = { c with event_id := c.event_id + 1, batch_id := c.batch_id + 1 } := by
      simp [applyAction, log_production_event]
    refine ⟨?_, ?_, ?_, ?_, ?_, ?_, ?_, ?_, ?_, ?_, ?_⟩
    · intro i e he
      rw [hpl i] at he
      rw [hcc]
      dsimp only
      split_ifs at he with hik
      · rcases List.mem_append.1 he with he | he
        · obtain ⟨a1, a2⟩ := hp i e he
          exact ⟨by omega, by omega⟩
        · simp only [List.mem_singleton] at he
          subst he
          exact ⟨by simp, by simp⟩
      · obtain ⟨a1, a2⟩ := hp i e he
        exact ⟨by omega, by omega⟩
    · intro i e he
      rw [hdl i] at he
      rw [hcc]
      dsimp only
      exact hd i e he
    · intro i e he
      rw [hql i] at he
      rw [hcc]
      dsimp only
      exact hq i e he
    · intro i
      rw [hpl i]
      split_ifs with hik
      · rw [List.map_append, List.nodup_append]
        refine ⟨hnp i, by simp, ?_⟩
        intro y hy hy2
        simp only [List.map_cons, List.map_nil, List.mem_singleton] at hy2
        obtain ⟨e, hee, hid⟩ := List.mem_map.1 hy
        have := (hp i e hee).1
        omega
      · exact hnp i
    · intro i
      rw [hpl i]
      split_ifs with hik
      · rw [List.map_append, List.nodup_append]
        refine ⟨hnb i, by simp, ?_⟩
        intro y hy hy2
        simp only [List.map_cons, List.map_nil, List.mem_singleton] at hy2
        obtain ⟨e, hee, hid⟩ := List.mem_map.1 hy
        have := (hp i e hee).2
        omega
      · exact hnb i
    · intro i
      rw [hdl i]
      exact hnd i
    · intro i
      rw [hql i]
      exact hnq i
    · intro i j hij e1 he1 e2 he2
      rw [hpl i] at he1
      rw [hpl j] at he2
      split_ifs at he1 he2 with hik hjk hjk
      · exact absurd (hik.trans hjk.symm) hij
      · rcases List.mem_append.1 he1 with he1 | he1
        · exact hxp i j hij e1 he1 e2 he2
        · simp only [List.mem_singleton] at he1
          subst he1
          have := (hp j e2 he2).1
          simp only [ne_eq]
          omega
      · rcases List.mem_append.1 he2 with he2 | he2
        · exact hxp i j hij e1 he1 e2 he2
        · simp only [List.mem_singleton] at he2
          subst he2
          have := (hp i e1 he1).1
          simp only [ne_eq]
          omega
      · exact hxp i j hij e1 he1 e2 he2
    · intro i j hij e1 he1 e2 he2
      rw [hpl i] at he1
      rw [hpl j] at he2
      split_ifs at he1 he2 with hik hjk hjk
      · exact absurd (hik.trans hjk.symm) hij
      · rcases List.mem_append.1 he1 with he1 | he1
        · exact hxb i j hij e1 he1 e2 he2
        · simp only [List.mem_singleton] at he1
          subst he1
          have := (hp j e2 he2).2
          simp only [ne_eq]
          omega
      · rcases List.mem_append.1 he2 with he2 | he2
        · exact hxb i j hij e1 he1 e2 he2
        · simp only [List.mem_singleton] at he2
          subst he2
          have := (hp i e1 he1).2
          simp only [ne_eq]
          omega
      · exact hxb i j hij e1 he1 e2 he2
    · intro i j hij e1 he1 e2 he2
      rw [hdl i] at he1
      rw [hdl j] at he2
      exact hxd i j hij e1 he1 e2 he2
    · intro i j hij e1 he1 e2 he2
      rw [hql i] at he1
      rw [hql j] at he2
      exact hxq i j hij e1 he1 e2 he2
  | down k pid prid ft ud fs fe =>
    have hpl : ∀ i, ((applyAction ms c (.down k pid prid ft ud fs fe)).1 i).production_log
        = (ms i).production_log := by
      intro i
      by_cases hik : i = k <;>
        simp [applyAction, log_downtime_event, Function.update_apply, hik]
    have hdl : ∀ i, ((applyAction ms c (.down k pid prid ft ud fs fe)).1 i).downtime_log
        = if i = k then (ms i).downtime_log ++
            [{ downtime_id := c.downtime_id,
               work_order_id := (ms k).current_work_order, process_id := pid,
               process_route_id := prid, machine_id := (ms k).machine_id,
               failure_type := ft, usage_duration := ud, failure_start := fs,
               failure_end := fe }]
          else (ms i).downtime_log := by
      intro i
      by_cases hik : i = k <;>
        simp [applyAction, log_downtime_event, Function.update_apply, hik]
    have hql : ∀ i, ((applyAction ms c (.down k pid prid ft ud fs fe)).1 i).quality_log
        = (ms i).quality_log := by
      intro i
      by_cases hik : i = k <;>
        simp [applyAction, log_downtime_event, Function.update_apply, hik]
    have hcc : (applyAction ms c (.down k pid prid ft ud fs fe)).2
        = { c with downtime_id := c.downtime_id + 1 } := by
      simp [applyAction, log_downtime_event]
    refine ⟨?_, ?_, ?_, ?_, ?_, ?_, ?_, ?_, ?_, ?_, ?_⟩
    · intro i e he
      rw [hpl i] at he
      rw [hcc]
      dsimp only
      exact hp i e he
    · intro i e he
      rw [hdl i] at he
      rw [hcc]
      dsimp only
      split_ifs at he with hik
      · rcases List.mem_append.1 he with he | he
        · have := hd i e he
          omega
        · simp only [List.mem_singleton] at he
          subst he
          simp
      · have := hd i e he
        omega
    · intro i e he
      rw [hql i] at he
      rw [hcc]
      dsimp only
      exact hq i e he
    · intro i
      rw [hpl i]
      exact hnp i
    · intro i
      rw [hpl i]
      exact hnb i
    · intro i
      rw [hdl i]
      split_ifs with hik
      · rw [List.map_append, List.nodup_append]
        refine ⟨hnd i, by simp, ?_⟩
        intro y hy hy2
        simp only [List.map_cons, List.map_nil, List.mem_singleton] at hy2
        obtain ⟨e, hee, hid⟩ := List.mem_map.1 hy
        have := hd i e hee
        omega
      · exact hnd i
    · intro i
      rw [hql i]
      exact hnq i
    · intro i j hij e1 he1 e2 he2
      rw [hpl i] at he1
      rw [hpl j] at he2
      exact hxp i j hij e1 he1 e2 he2
    · intro i j hij e1 he1 e2 he2
      rw [hpl i] at he1
      rw [hpl j] at he2
      exact hxb i j hij e1 he1 e2 he2
    · intro i j hij e1 he1 e2 he2
      rw [hdl i] at he1
      rw [hdl j] at he2
      split_ifs at he1 he2 with hik hjk hjk
      · exact absurd (hik.trans hjk.symm) hij
      · rcases List.mem_append.1 he1 with he1 | he1
        · exact hxd i j hij e1 he1 e2 he2
        · simp only [List.mem_singleton] at he1
          subst he1
          have := hd j e2 he2
          simp only [ne_eq]
          omega
      · rcases List.mem_append.1 he2 with he2 | he2
        · exact hxd i j hij e1 he1 e2 he2
        · simp only [List.mem_singleton] at he2
          subst he2
          have := hd i e1 he1
          simp only [ne_eq]
          omega
      · exact hxd i j hij e1 he1 e2 he2
    · intro i j hij e1 he1 e2 he2
      rw [hql i] at he1
      rw [hql j] at he2
      exact hxq i j hij e1 he1 e2 he2
  | qual k pid prid st b init g sc et =>
    have hpl : ∀ i, ((applyAction ms c (.qual k pid prid st b init g sc et)).1 i).production_log
        = (ms i).production_log := by
      intro i
      by_cases hik : i = k <;>
        simp [applyAction, log_quality_event, Function.update_apply, hik]
    have hdl : ∀ i, ((applyAction ms c (.qual k pid prid st b init g sc et)).1 i).downtime_log
        = (ms i).downtime_log := by
      intro i
      by_cases hik : i = k <;>
        simp [applyAction, log_quality_event, Function.update_apply, hik]
    have hql : ∀ i, ((applyAction ms c (.qual k pid prid st b init g sc et)).1 i).quality_log
        = if i = k then (ms i).quality_log ++
            [{ quality_id := c.quality_id,
               work_order_id := (ms k).current_work_order,
               machine_id := (ms k).machine_id, process_id := pid,
               process_route_id := prid, step_number := st, batch_id := b,
               initial_quantity := init, units_approved := g,
               units_scrapped := sc, event_time := et }]
          else (ms i).quality_log := by
      intro i
      by_cases hik : i = k <;>
        simp [applyAction, log_quality_event, Function.update_apply, hik]
    have hcc : (applyAction ms c (.qual k pid prid st b init g sc et)).2
        = { c with quality_id := c.quality_id + 1 } := by
      simp [applyAction, log_quality_event]
    refine ⟨?_, ?_, ?_, ?_, ?_, ?_, ?_, ?_, ?_, ?_, ?_⟩
    · intro i e he
      rw [hpl i] at he
      rw [hcc]
      dsimp only
      exact hp i e he
    · intro i e he
      rw [hdl i] at he
      rw [hcc]
      dsimp only
      exact hd i e he
    · intro i e he
      rw [hql i] at he
      rw [hcc]
      dsimp only
      split_ifs at he with hik
      · rcases List.mem_append.1 he with he | he
        · have := hq i e he
          omega
        · simp only [List.mem_singleton] at he
          subst he
          simp
      · have := hq i e he
        omega
    · intro i
      rw [hpl i]
      exact hnp i
    · intro i
      rw [hpl i]
      exact hnb i
    · intro i
      rw [hdl i]
      exact hnd i
    · intro i
      rw [hql i]
      split_ifs with hik
      · rw [List.map_append, List.nodup_append]
        refine ⟨hnq i, by simp, ?_⟩
        intro y hy hy2
        simp only [List.map_cons, List.map_nil, List.mem_singleton] at hy2
        obtain ⟨e, hee, hid⟩ := List.mem_map.1 hy
        have := hq i e hee
        omega
      · exact hnq i
    · intro i j hij e1 he1 e2 he2
      rw [hpl i] at he1
      rw [hpl j] at he2
      exact hxp i j hij e1 he1 e2 he2
    · intro i j hij e1 he1 e2 he2
      rw [hpl i] at he1
      rw [hpl j] at he2
      exact hxb i j hij e1 he1 e2 he2
    · intro i j hij e1 he1 e2 he2
      rw [hdl i] at he1
      rw [hdl j] at he2
      exact hxd i j hij e1 he1 e2 he2
    · intro i j hij e1 he1 e2 he2
      rw [hql i] at he1
      rw [hql j] at he2
      split_ifs at he1 he2 with hik hjk hjk
      · exact absurd (hik.trans hjk.symm) hij
      · rcases List.mem_append.1 he1 with he1 | he1
        · exact hxq i j hij e1 he1 e2 he2
        · simp only [List.mem_singleton] at he1
          subst he1
          have := hq j e2 he2
          simp only [ne_eq]
          omega
      · rcases List.mem_append.1 he2 with he2 | he2
        · exact hxq i j hij e1 he1 e2 he2
        · simp only [List.mem_singleton] at he2
          subst he2
          have := hq i e1 he1
          simp only [ne_eq]
          omega
      · exact hxq i j hij e1 he1 e2 he2

theorem idState_runActions (acts : List LogAction) :
    ∀ (ms : ℕ → Machine) (c : Counters), idState ms c →
      idState (runActions ms c acts).1 (runActions ms c acts).2 := by
  induction acts with
  | nil => intro ms c h; exact h
  | cons a rest ih =>
    intro ms c h
    exact ih _ _ (idState_preserved ms c a h)

/-- C9: within one run (counters starting at 1, machine logs starting empty),
every `event_id`, `batch_id`, `downtime_id` and `quality_id` is drawn from its
own shared monotonically increasing counter, so the ids of each kind are
strictly increasing in creation order, and across all machines' logs no two
records of the same kind share an id — without any collision checks. -/
theorem global_id_uniqueness (acts : List LogAction) (ms0 : ℕ → Machine)
    (h0 : ∀ i, (ms0 i).production_log = [] ∧ (ms0 i).downtime_log = []
      ∧ (ms0 i).quality_log = []) :
    List.Pairwise (· < ·) (idTraces ms0 initialCounters acts).events ∧
    List.Pairwise (· < ·) (idTraces ms0 initialCounters acts).batches ∧
    List.Pairwise (· < ·) (idTraces ms0 initialCounters acts).downtimes ∧
    List.Pairwise (· < ·) (idTraces ms0 initialCounters acts).qualities ∧
    idState (runActions ms0 initialCounters acts).1
      (runActions ms0 initialCounters acts).2 := by
  refine ⟨?_, ?_, ?_, ?_, ?_⟩
  · rw [idTraces_events_eq]
    exact List.pairwise_lt_range' _ _
  · rw [idTraces_batches_eq]
    exact List.pairwise_lt_range' _ _
  · rw [idTraces_downtimes_eq]
    exact List.pairwise_lt_range' _ _
  · rw [idTraces_qualities_eq]
    exact List.pairwise_lt_range' _ _
  · apply idState_runActions
    refine ⟨?_, ?_, ?_, ?_, ?_, ?_, ?_, ?_, ?_, ?_, ?_⟩
    · intro i e he
      rw [(h0 i).1] at he
      exact absurd he (List.not_mem_nil e)
    · intro i e he
      rw [(h0 i).2.1] at he
      exact absurd he (List.not_mem_nil e)
    · intro i e he
      rw [(h0 i).2.2] at he
      exact absurd he (List.not_mem_nil e)
    · intro i
      rw [(h0 i).1]
      simp
    · intro i
      rw [(h0 i).1]
      simp
    · intro i
      rw [(h0 i).2.1]
      simp
    · intro i
      rw [(h0 i).2.2]
      simp
    · intro i j _ e1 he1
      rw [(h0 i).1] at he1
      exact absurd he1 (List.not_mem_nil e1)
    · intro i j _ e1 he1
      rw [(h0 i).1] at he1
      exact absurd he1 (List.not_mem_nil e1)
    · intro i j _ e1 he1
      rw [(h0 i).2.1] at he1
      exact absurd he1 (List.not_mem_nil e1)
    · intro i j _ e1 he1
      rw [(h0 i).2.2] at he1
      exact absurd he1 (List.not_mem_nil e1)

/-- Witness for C9: a three-call run (two production logs on different
machines, one downtime log) starting from an all-idle population. -/
theorem global_id_uniqueness_witness :
    ((∀ i, ((fun _ : ℕ => m0) i : Machine).production_log = [] ∧
       ((fun _ : ℕ => m0) i : Machine).downtime_log = [] ∧
       ((fun _ : ℕ => m0) i : Machine).quality_log = []) ) ∧
    (List.Pairwise (· < ·)
      (idTraces (fun _ : ℕ => m0) initialCounters
        [.prod 0 1 1 1 0 5 5 "completed", .prod 3 1 1 1 0 5 5 "completed",
         .down 0 1 1 "Bearing Seizure" 1 2 3]).events ∧
     List.Pairwise (· < ·)
      (idTraces (fun _ : ℕ => m0) initialCounters
        [.prod 0 1 1 1 0 5 5 "completed", .prod 3 1 1 1 0 5 5 "completed",
         .down 0 1 1 "Bearing Seizure" 1 2 3]).batches ∧
     List.Pairwise (· < ·)
      (idTraces (fun _ : ℕ => m0) initialCounters
        [.prod 0 1 1 1 0 5 5 "completed", .prod 3 1 1 1 0 5 5 "completed",
         .down 0 1 1 "Bearing Seizure" 1 2 3]).downtimes ∧
     List.Pairwise (· < ·)
      (idTraces (fun _ : ℕ => m0) initialCounters
        [.prod 0 1 1 1 0 5 5 "completed", .prod 3 1 1 1 0 5 5 "completed",
         .down 0 1 1 "Bearing Seizure" 1 2 3]).qualities ∧
     idState
      (runActions (fun _ : ℕ => m0) initialCounters
        [.prod 0 1 1 1 0 5 5 "completed", .prod 3 1 1 1 0 5 5 "completed",
         .down 0 1 1 "Bearing Seizure" 1 2 3]).1
      (runActions (fun _ : ℕ => m0) initialCounters
        [.prod 0 1 1 1 0 5 5 "completed", .prod 3 1 1 1 0 5 5 "completed",
         .down 0 1 1 "Bearing Seizure" 1 2 3]).2) :=
  ⟨fun _ => ⟨rfl, rfl, rfl⟩,
   global_id_uniqueness
     [.prod 0 1 1 1 0 5 5 "completed", .prod 3 1 1 1 0 5 5 "completed",
      .down 0 1 1 "Bearing Seizure" 1 2 3]
     (fun _ : ℕ => m0) (fun _ => ⟨rfl, rfl, rfl⟩)⟩
